import Mathlib

/-!
Verification development for the session engine of a Telegram bridge to a
CLI coding agent. The definitions below are a shallow embedding of
`src/session.ts` (class `ClaudeSession`): the streaming decode loop of
`sendMessageStreaming`, the too-long pattern detector, the bounded session
store (`saveSession`, `resumeSession`) and the context-percent computation.

Modeling conventions:
* JS strings are modeled through their character lists (`String.data`);
  JS `.length` / `.slice` count UTF-16 units, here Unicode scalars.
* JS numbers are idealized as exact arithmetic (`Nat` / `Int` / `Rat`);
  `Math.round` becomes `jsRound` on rationals.
* JS truthiness tests on strings become `≠ ""` tests, on numbers `≠ 0`.
* The regexes of `PROMPT_TOO_LONG_PATTERNS` are literal pieces separated by
  `.*` gaps, all with the `i` flag: they are embedded as ordered
  case-insensitive substring search (`piecesMatch`).
-/

namespace GsdBot

/-! ### Character-level string operations (kernel-reducible) -/

/-- Length of a JS string, counted in characters. -/
def strLen (s : String) : Nat := s.data.length

/-- Lower-case a string character by character (models the `i` regex flag
and `String.prototype.toLowerCase` for the ASCII texts involved). -/
def lowerStr (s : String) : String := ⟨s.data.map Char.toLower⟩

/-- Model of `s.slice(n)`: drop the first `n` characters. -/
def strDrop (s : String) (n : Nat) : String := ⟨s.data.drop n⟩

/-- Model of `s.slice(0, n)`: take the first `n` characters. -/
def strTake (s : String) (n : Nat) : String := ⟨s.data.take n⟩

/-- Decide whether `p` is an initial run of `s`. -/
def leadRun : List Char → List Char → Bool
  | [], _ => true
  | _ :: _, [] => false
  | p :: ps, c :: cs => p == c && leadRun ps cs

/-- Find the first occurrence of `pat` inside `s` and return the suffix of
`s` after that occurrence (`none` when `pat` does not occur). -/
def searchSub (pat : List Char) : List Char → Option (List Char)
  | [] => if pat.isEmpty then some [] else none
  | c :: cs => if leadRun pat (c :: cs) then some ((c :: cs).drop pat.length)
               else searchSub pat cs

/-- Model of `s.includes(pat)`. -/
def strContains (s pat : String) : Bool := (searchSub pat.data s.data).isSome

/-- Model of `s.startsWith(pat)`. -/
def strStarts (s pat : String) : Bool := leadRun pat.data s.data

/-! ### Too-long pattern detection (`PROMPT_TOO_LONG_PATTERNS`) -/

/-- The five regexes of `PROMPT_TOO_LONG_PATTERNS`, each given as the list
of literal pieces between `.*` gaps (all patterns are case-insensitive, so
the pieces are recorded lower-case):
`/input length and max_tokens exceed context limit/i`,
`/exceed context limit/i`, `/context limit.*exceeded/i`,
`/prompt.*too.*long/i`, `/conversation is too long/i`. -/
def tooLongPieces : List (List String) :=
  [["input length and max_tokens exceed context limit"],
   ["exceed context limit"],
   ["context limit", "exceeded"],
   ["prompt", "too", "long"],
   ["conversation is too long"]]

/-- Match a sequence of literal pieces in order, with arbitrary gaps.
Taking the earliest occurrence of each piece is complete for this pattern
class, since an earlier match leaves a larger suffix for later pieces. -/
def piecesMatch : List (List Char) → List Char → Bool
  | [], _ => true
  | p :: ps, s =>
    match searchSub p s with
    | none => false
    | some s2 => piecesMatch ps s2

/-- Model of `isPromptTooLong` from `src/session.ts`: does any of the five
context-limit regexes match the text. -/
def isPromptTooLong (text : String) : Bool :=
  tooLongPieces.any fun pieces =>
    piecesMatch (pieces.map String.data) (lowerStr text).data

example : isPromptTooLong "Prompt is too long" = true := by decide
example : isPromptTooLong "API Error: conversation is too long" = true := by decide
example : isPromptTooLong "ordinary text" = false := by decide

/-! ### Token usage and context percent -/

/-- `TokenUsage`, populated from a result event; absent JS fields are
normalized to `0` by the `|| 0` in the source. -/
structure Usage where
  input_tokens : Nat
  output_tokens : Nat
  cache_read_input_tokens : Nat
  cache_creation_input_tokens : Nat
deriving DecidableEq

/-- One value of `event.modelUsage`: per-model token counts (absent fields
read as `0` through `|| 0`) and an optional `contextWindow` (the source
applies `|| 200000`, which also replaces an explicit `0`). -/
structure ModelUsageEntry where
  inputTokens : Nat
  outputTokens : Nat
  cacheReadInputTokens : Nat
  cacheCreationInputTokens : Nat
  contextWindow : Option Nat
deriving DecidableEq

/-- JS `Math.round`: round half toward positive infinity. -/
def jsRound (q : ℚ) : ℤ := ⌊q + 1 / 2⌋

/-- Sum of the four token counts of one model entry. -/
def totalTokensOf (m : ModelUsageEntry) : Nat :=
  m.inputTokens + m.outputTokens + m.cacheReadInputTokens +
    m.cacheCreationInputTokens

/-- The `m.contextWindow || 200000` of the source. -/
def effectiveWindow (m : ModelUsageEntry) : Nat :=
  match m.contextWindow with
  | none => 200000
  | some 0 => 200000
  | some w => w

/-- Context-percent computation of the result branch of
`sendMessageStreaming`: take the first entry of `Object.values(modelUsage)`
and round `(totalTokens / contextWindow) * 100`. Returns `none` when the
breakdown is empty, in which case the source leaves `contextPercent`
untouched. -/
def computeContextPercent (models : List ModelUsageEntry) : Option ℤ :=
  match models with
  | [] => none
  | m :: _ =>
    some (jsRound ((totalTokensOf m : ℚ) / (effectiveWindow m : ℚ) * 100))

/-! ### Session store (`saveSession`, `resumeSession`) -/

/-- `MAX_SESSIONS` from `src/session.ts`. -/
def MAX_SESSIONS : Nat := 5

/-- A persisted history entry. -/
structure SavedSession where
  session_id : String
  saved_at : String
  working_dir : String
  title : String
deriving DecidableEq

/-- The persisted history document. -/
structure SessionHistory where
  sessions : List SavedSession
deriving DecidableEq

/-- The mutable fields of the live `ClaudeSession` object that the claims
touch. -/
structure SessState where
  sessionId : Option String
  conversationTitle : Option String
  lastActivity : Option Nat
  lastError : Option String
  lastUsage : Option Usage
  contextPercent : Option ℤ
  currentTool : Option String
  lastTool : Option String
  workingDir : String
deriving DecidableEq

/-- The history entry `saveSession` writes for the live session: the
`this.conversationTitle || "Untitled session"` default also replaces an
empty title. -/
def mkSavedSession (live : SessState) (sid savedAt : String) : SavedSession :=
  { session_id := sid
    saved_at := savedAt
    working_dir := live.workingDir
    title :=
      match live.conversationTitle with
      | some t => if t = "" then "Untitled session" else t
      | none => "Untitled session" }

/-- Pure core of `saveSession`: the guard `if (!this.sessionId) return;`
makes it a no-op when the session id is absent or the JS-falsy empty
string; otherwise replace the first entry with the same `session_id` in
place (`findIndex` + assignment), or prepend (`unshift`) when absent,
then truncate to `MAX_SESSIONS` (`slice(0, MAX_SESSIONS)`). -/
def saveSession (live : SessState) (savedAt : String)
    (history : SessionHistory) : SessionHistory :=
  match live.sessionId with
  | none => history
  | some sid =>
    if sid = "" then history
    else
      let newSession := mkSavedSession live sid savedAt
      let sessions :=
        match history.sessions.findIdx? (fun s => s.session_id == sid) with
        | some i => history.sessions.set i newSession
        | none => newSession :: history.sessions
      ⟨sessions.take MAX_SESSIONS⟩

/-- `resumeSession`: look the id up, reject a recorded working directory
that is non-empty (JS truthiness) and different from the live one, else
adopt id and title and stamp `lastActivity`. Returns the
`[success, message]` pair together with the updated live state. -/
def resumeSession (live : SessState) (history : SessionHistory)
    (sid : String) (now : Nat) : (Bool × String) × SessState :=
  match history.sessions.find? (fun s => s.session_id == sid) with
  | none => ((false, "Session not found"), live)
  | some sd =>
    if sd.working_dir ≠ "" ∧ sd.working_dir ≠ live.workingDir then
      ((false, "Session is for a different directory: " ++ sd.working_dir),
       live)
    else
      ((true, "Resumed session: \"" ++ sd.title ++ "\""),
       { live with
          sessionId := some sd.session_id
          conversationTitle := some sd.title
          lastActivity := some now })

/-! ### Streaming event model (`sendMessageStreaming`)

The decode loop of `sendMessageStreaming` is embedded as a fold over the
decoded NDJSON lines. Ghost data recorded for specification purposes only:
the tool-use id on `tool` emissions and the causing tool-use id on
`segment_end` emissions (the callback in the source receives only the
display text, respectively the accumulated text), the per-line clock value
and stop-flag sample, and the final loop state. -/

/-- `STREAMING_THROTTLE_MS` from `src/config.ts`. -/
def STREAMING_THROTTLE_MS : Nat := 500

/-- One content block of an assistant turn. The block-level JS truthiness
guards (`block.thinking`, `block.text`, `block.id`) are kept in the
processing function. `other` stands for any further block type, which the
loop ignores. -/
inductive Block where
  | thinking (content : String)
  | text (content : String)
  | toolUse (id : String) (name : String) (input : List (String × String))
  | other
deriving DecidableEq

/-- One decoded stream event. Every event may carry a `session_id`.
`meta` stands for any event type other than `assistant` / `result`
(for example the initial system event). -/
inductive StreamEvent where
  | assistant (session_id : Option String) (msgId : String)
      (content : List Block)
  | result (session_id : Option String) (resultText : Option String)
      (usage : Option Usage) (modelUsage : List ModelUsageEntry)
      (isError : Bool) (subtype : Option String) (errorField : Option String)
  | meta (session_id : Option String)
deriving DecidableEq

/-- One line read from the subprocess: the sampled value of the stop flag
at the top of the loop body, the clock value during this line, and the
parse outcome (`none`: not a JSON object, silently skipped). -/
structure Line where
  stopFlag : Bool
  time : Nat
  parsed : Option StreamEvent
deriving DecidableEq

/-- One invocation of the delivery callback. `toolId` on `tool` and
`cause` on `segmentEnd` are ghost metadata (the id of the triggering
tool-use block; `cause = none` marks the final flush before `done`). -/
inductive Emission where
  | thinking (content : String)
  | tool (toolId : String) (content : String)
  | textUpd (content : String) (segId : Nat)
  | segmentEnd (content : String) (segId : Nat) (cause : Option String)
  | done
deriving DecidableEq

/-- Environment of one query: `formatToolStatus` (imported from the
formatting module, left abstract for the claims), whether both `ctx` and `chatId`
were passed, and whether the ask-bridge poll (initial delay plus up to 3
attempts) surfaces a pending request for the given tool-use id. -/
structure Env where
  fmt : String → List (String × String) → String
  hasCtxChat : Bool
  askPoll : String → Bool

/-- The local state of the decode loop plus the mutated `ClaudeSession`
fields. -/
structure LoopState where
  sess : SessState
  responseParts : List String
  currentSegmentId : Nat
  currentSegmentText : String
  lastTextUpdate : Nat
  askUserTriggered : Bool
  resultText : Option String
  promptTooLong : Bool
  currentMsgId : Option String
  processedBlockLengths : List Nat
  processedToolIds : List String
deriving DecidableEq

/-- JS sparse-array assignment `a[i] = v` for `processedBlockLengths`:
holes read back as `0` through `|| 0`, so they are padded with `0`. -/
def setPad (l : List Nat) (i : Nat) (v : Nat) : List Nat :=
  (l ++ List.replicate (i + 1 - l.length) 0).set i v

/-- Process one content block at position `i` (loop body of lines
348-439 of `sendMessageStreaming`). Returns the updated state and the
emissions produced, in order. -/
def processBlock (env : Env) (time : Nat) (st : LoopState) (i : Nat) :
    Block → LoopState × List Emission
  | .thinking c =>
    let prevLen := st.processedBlockLengths.getD i 0
    if c ≠ "" ∧ prevLen < strLen c then
      ({ st with processedBlockLengths := setPad st.processedBlockLengths i (strLen c) },
       [.thinking c])
    else (st, [])
  | .text c =>
    let prevLen := st.processedBlockLengths.getD i 0
    if c ≠ "" ∧ prevLen < strLen c then
      let delta := strDrop c prevLen
      let st1 := { st with
        processedBlockLengths := setPad st.processedBlockLengths i (strLen c)
        responseParts := st.responseParts ++ [delta]
        currentSegmentText := st.currentSegmentText ++ delta }
      if st1.lastTextUpdate + STREAMING_THROTTLE_MS < time ∧
          20 < strLen st1.currentSegmentText then
        ({ st1 with lastTextUpdate := time },
         [.textUpd st1.currentSegmentText st1.currentSegmentId])
      else (st1, [])
    else (st, [])
  | .toolUse id name input =>
    if id ≠ "" ∧ id ∉ st.processedToolIds then
      let st1 := { st with
        processedToolIds := id :: st.processedToolIds
        processedBlockLengths := setPad st.processedBlockLengths i 1 }
      let r2 :=
        if st1.currentSegmentText ≠ "" then
          ({ st1 with
              currentSegmentId := st1.currentSegmentId + 1
              currentSegmentText := "" },
           [Emission.segmentEnd st1.currentSegmentText st1.currentSegmentId (some id)])
        else (st1, ([] : List Emission))
      let st2 := r2.1
      let toolDisplay := env.fmt name input
      let st3 := { st2 with sess :=
        { st2.sess with currentTool := some toolDisplay, lastTool := some toolDisplay } }
      let toolEms :=
        if strStarts name "mcp__ask-user" then ([] : List Emission)
        else [Emission.tool id toolDisplay]
      let st4 :=
        if strStarts name "mcp__ask-user" ∧ env.hasCtxChat then
          { st3 with askUserTriggered := st3.askUserTriggered || env.askPoll id }
        else st3
      (st4, r2.2 ++ toolEms)
    else (st, [])
  | .other => (st, [])

/-- Process the ordered block list of one assistant turn, positions
starting at `i`. -/
def processBlocks (env : Env) (time : Nat) :
    LoopState → Nat → List Block → LoopState × List Emission
  | st, _, [] => (st, [])
  | st, i, b :: bs =>
    let r1 := processBlock env time st i b
    let r2 := processBlocks env time r1.1 (i + 1) bs
    (r2.1, r1.2 ++ r2.2)

/-- Capture `event.session_id` on the first event carrying one (line 330;
the accompanying `saveSession()` disk write is modeled separately by
`saveSession`). -/
def captureSession (st : LoopState) (sid : Option String) : LoopState :=
  match sid with
  | some s =>
    if s ≠ "" ∧ st.sess.sessionId = none then
      { st with sess := { st.sess with sessionId := some s } }
    else st
  | none => st

/-- Result of processing one decoded event: next state, emissions, and the
message of the exception raised by an error-marked result event, if any. -/
structure StepOut where
  st : LoopState
  ems : List Emission
  thrown : Option String
deriving DecidableEq

/-- Lines 341-344: a new assistant-turn id resets the per-position dedup
lengths. -/
def msgReset (st : LoopState) (msgId : String) : LoopState :=
  if st.currentMsgId ≠ some msgId then
    { st with currentMsgId := some msgId, processedBlockLengths := [] }
  else st

/-- Process one decoded event (lines 329-503 of `sendMessageStreaming`). -/
def processEvent (env : Env) (time : Nat) (st0 : LoopState) :
    StreamEvent → StepOut
  | .assistant sid msgId content =>
    let stA := captureSession st0 sid
    let stB := msgReset stA msgId
    let r := processBlocks env time stB 0 content
    ⟨r.1, r.2, none⟩
  | .result sid rt usage models isError sub errField =>
    let stA := captureSession st0 sid
    let stB := { stA with resultText :=
      match rt with
      | some r => if r = "" then none else some r
      | none => none }
    let stC :=
      match usage with
      | some u => { stB with sess := { stB.sess with lastUsage := some u } }
      | none => stB
    let stD :=
      match computeContextPercent models with
      | some p => { stC with sess := { stC.sess with contextPercent := some p } }
      | none => stC
    let tooLongFromResult :=
      match rt with
      | some r => r ≠ "" && isPromptTooLong r
      | none => false
    let stE := if tooLongFromResult then { stD with promptTooLong := true } else stD
    if isError || sub == some "error" then
      let fallback : String :=
        match rt with
        | some r => if r = "" then "Unknown CLI error" else r
        | none => "Unknown CLI error"
      let errorMsg :=
        match errField with
        | some e => if e = "" then fallback else e
        | none => fallback
      let stF := if isPromptTooLong errorMsg then { stE with promptTooLong := true } else stE
      ⟨stF, [], some ("CLI error: " ++ errorMsg)⟩
    else ⟨stE, [], none⟩
  | .meta sid => ⟨captureSession st0 sid, [], none⟩

/-- Outcome of the read loop: final state, emissions in order, exception
raised while decoding (if any), and whether the loop exited through an
observed stop request. -/
structure LoopOut where
  st : LoopState
  ems : List Emission
  thrown : Option String
  stopSeen : Bool
deriving DecidableEq

/-- The `for await (const line of rl)` loop: abort on an observed stop
flag, skip unparseable lines, dispatch events, stop on a raised error or
once the ask bridge suspended the query. -/
def runLoop (env : Env) : LoopState → List Line → LoopOut
  | st, [] => ⟨st, [], none, false⟩
  | st, line :: rest =>
    if line.stopFlag then ⟨st, [], none, true⟩
    else
      match line.parsed with
      | none => runLoop env st rest
      | some ev =>
        let out := processEvent env line.time st ev
        match out.thrown with
        | some m => ⟨out.st, out.ems, some m, false⟩
        | none =>
          if out.st.askUserTriggered then ⟨out.st, out.ems, none, false⟩
          else
            let r := runLoop env out.st rest
            ⟨r.st, out.ems ++ r.ems, r.thrown, r.stopSeen⟩

/-! ### The full query driver -/

/-- The value `sendMessageStreaming` produces: a returned string or the
message of a raised error. -/
inductive QueryOutcome where
  | ok (response : String)
  | thrown (msg : String)
deriving DecidableEq

/-- Ghost classification of how the query terminated. -/
inductive TermKind where
  | normal
  | tooLong
  | askUser
  | errored
  | cancelled
deriving DecidableEq

/-- The externally supplied parts of one query run: caller message, the
formatted current date string, the pre-spawn stop-flag sample (line 256),
the decoded output lines, the stderr chunks, the subprocess exit code,
the stop-flag sample at the post-loop checks, and the clock value for the
final `lastActivity` stamp. -/
structure RunInput where
  message : String
  dateStr : String
  stopBeforeSpawn : Bool
  lines : List Line
  stderrChunks : List String
  exitCode : Int
  stopAtEnd : Bool
  endTime : Nat
deriving DecidableEq

/-- Observable result of one `sendMessageStreaming` call. `finalLoop` and
`term` are ghost specification data; `stdinSent` is the prompt piped to
the stdin of the subprocess (`none` when no subprocess was spawned). -/
structure RunResult where
  outcome : QueryOutcome
  sess : SessState
  ems : List Emission
  stdinSent : Option String
  finalLoop : Option LoopState
  term : TermKind
deriving DecidableEq

/-- Lines 199-215: at session start the message gains a leading
bracketed date/time line and a blank line; otherwise it is sent verbatim.
`dateStr` abstracts `now.toLocaleDateString("en-US", ...)`. -/
def buildMessageToSend (isNewSession : Bool) (dateStr message : String) : String :=
  if isNewSession then "[Current date/time: " ++ dateStr ++ "]\n\n" ++ message
  else message

/-- The dedicated context-limit outcome string (line 557). -/
def contextLimitMsg : String :=
  "⚠️ Context limit reached — session auto-cleared. Send a new message to start fresh."

/-- The suspension outcome string (line 563). -/
def waitingMsg : String := "[Waiting for user selection]"

/-- Lines 548-578: the epilogue after the try/catch completed without a
propagated exception: stamp `lastActivity`, clear the error fields, then
branch on too-long auto-reset, ask-user suspension, or the normal final
flush and return value. -/
def runEpilogue (inp : RunInput) (stdinContent : String) (lr : LoopOut)
    (tooLong : Bool) : RunResult :=
  let sess1 := { lr.st.sess with
    lastActivity := some inp.endTime
    lastError := none
    currentTool := none }
  if tooLong then
    { outcome := .ok contextLimitMsg
      sess := { sess1 with
        sessionId := none, lastActivity := none, conversationTitle := none }
      ems := lr.ems ++ [.done]
      stdinSent := some stdinContent
      finalLoop := some lr.st
      term := .tooLong }
  else if lr.st.askUserTriggered then
    { outcome := .ok waitingMsg
      sess := sess1
      ems := lr.ems ++ [.done]
      stdinSent := some stdinContent
      finalLoop := some lr.st
      term := .askUser }
  else
    let flushEms :=
      if lr.st.currentSegmentText ≠ "" then
        [Emission.segmentEnd lr.st.currentSegmentText lr.st.currentSegmentId none]
      else ([] : List Emission)
    let joined := String.join lr.st.responseParts
    let response :=
      match lr.st.resultText with
      | some r => r
      | none => if joined ≠ "" then joined else "No response from Claude."
    { outcome := .ok response
      sess := sess1
      ems := lr.ems ++ flushEms ++ [.done]
      stdinSent := some stdinContent
      finalLoop := some lr.st
      term := .normal }

/-- The catch block at lines 528-546, receiving the message `m` of the
raised error: suppress only cleanup errors while a stop or suspension is
in effect (falling through to the epilogue), otherwise record `lastError`
(`String(error)` is `"Error: " ++ m`, truncated to 100 characters) and
re-raise. -/
def catchBlock (inp : RunInput) (stdinContent : String) (lr : LoopOut)
    (tooLong : Bool) (m : String) : RunResult :=
  let stopFlag := lr.stopSeen || inp.stopAtEnd
  let eStr := lowerStr ("Error: " ++ m)
  if (strContains eStr "cancel" || strContains eStr "abort") ∧
      (stopFlag = true ∨ lr.st.askUserTriggered = true) then
    runEpilogue inp stdinContent lr tooLong
  else
    { outcome := .thrown m
      sess := { lr.st.sess with
        lastError := some (strTake ("Error: " ++ m) 100)
        currentTool := none }
      ems := lr.ems
      stdinSent := some stdinContent
      finalLoop := some lr.st
      term := .errored }

/-- Lines 506-579, after the read loop finished: the stderr pattern fast
path, the exit-code check (raising into the catch block), the catch block
for an error raised while decoding, and the epilogue. -/
def finishRun (inp : RunInput) (stdinContent : String) (lr : LoopOut) :
    RunResult :=
  let stopFlag := lr.stopSeen || inp.stopAtEnd
  let tooLong := lr.st.promptTooLong || inp.stderrChunks.any isPromptTooLong
  match lr.thrown with
  | some m => catchBlock inp stdinContent lr tooLong m
  | none =>
    if inp.exitCode ≠ 0 ∧ ¬stopFlag = true ∧ ¬lr.st.askUserTriggered = true then
      catchBlock inp stdinContent lr tooLong
        ("exited with code " ++ toString inp.exitCode ++ ": " ++
          strTake (String.join inp.stderrChunks) 200)
    else runEpilogue inp stdinContent lr tooLong

/-- The loop state at query start (lines 279-297 resetting of the
per-query tracking; line 282 clears `currentTool`). -/
def initLoopState (sess0 : SessState) : LoopState :=
  { sess := { sess0 with currentTool := none }
    responseParts := []
    currentSegmentId := 0
    currentSegmentText := ""
    lastTextUpdate := 0
    askUserTriggered := false
    resultText := none
    promptTooLong := false
    currentMsgId := none
    processedBlockLengths := []
    processedToolIds := [] }

/-- Full model of `sendMessageStreaming` (lines 183-579): pre-spawn
cancellation check, prompt construction and stdin write, the decode loop,
then `finishRun`. -/
def sendMessageStreaming (env : Env) (sess0 : SessState) (inp : RunInput) :
    RunResult :=
  let isNewSession := sess0.sessionId = none
  let messageToSend := buildMessageToSend isNewSession inp.dateStr inp.message
  if inp.stopBeforeSpawn then
    { outcome := .thrown "Query cancelled"
      sess := sess0
      ems := []
      stdinSent := none
      finalLoop := none
      term := .cancelled }
  else
    finishRun inp messageToSend (runLoop env (initLoopState sess0) inp.lines)

/-! ### Auxiliary lemmas about `getD` and `setPad` -/

lemma getD_replicate_zero : ∀ (k j : Nat), (List.replicate k (0 : Nat)).getD j 0 = 0
  | 0, _ => rfl
  | _ + 1, 0 => rfl
  | k + 1, j + 1 => getD_replicate_zero k j

lemma getD_append_zeros : ∀ (l : List Nat) (k j : Nat),
    (l ++ List.replicate k 0).getD j 0 = l.getD j 0
  | [], k, j => getD_replicate_zero k j
  | _ :: _, _, 0 => rfl
  | _ :: l, k, j + 1 => getD_append_zeros l k j

lemma getD_set_self : ∀ (l : List Nat) (i v : Nat), i < l.length →
    (l.set i v).getD i 0 = v
  | _ :: _, 0, _, _ => rfl
  | _ :: l, i + 1, v, h => getD_set_self l i v (Nat.lt_of_succ_lt_succ h)

lemma getD_set_ne : ∀ (l : List Nat) (i j v : Nat), i ≠ j →
    (l.set i v).getD j 0 = l.getD j 0
  | [], _, _, _, _ => rfl
  | _ :: _, 0, 0, _, h => absurd rfl h
  | _ :: _, 0, _ + 1, _, _ => rfl
  | _ :: _, _ + 1, 0, _, _ => rfl
  | _ :: l, i + 1, j + 1, v, h =>
    getD_set_ne l i j v (fun e => h (congrArg Nat.succ e))

lemma getD_setPad_self (l : List Nat) (i v : Nat) :
    (setPad l i v).getD i 0 = v := by
  apply getD_set_self
  simp [List.length_append, List.length_replicate]
  omega

lemma getD_setPad_ne (l : List Nat) (i j v : Nat) (h : i ≠ j) :
    (setPad l i v).getD j 0 = l.getD j 0 :=
  (getD_set_ne _ _ _ _ h).trans (getD_append_zeros _ _ _)

/-! ### Segment-id bookkeeping (`wellSeg`) -/

/-- The segment id attached to an emission, when it carries one as a
`segment_end`. -/
def segEndId : Emission → Option Nat
  | .segmentEnd _ k _ => some k
  | _ => none

/-- The segment ids of the `segment_end` emissions of a list, in order. -/
def segEndIds (ems : List Emission) : List Nat := ems.filterMap segEndId

/-- A list of emissions is well-segmented starting from counter `n`: every
id-carrying emission carries the running counter, and every `segment_end`
advances it. -/
def wellSeg : Nat → List Emission → Prop
  | _, [] => True
  | n, .textUpd _ k :: rest => k = n ∧ wellSeg n rest
  | n, .segmentEnd _ k _ :: rest => k = n ∧ wellSeg (n + 1) rest
  | n, .thinking _ :: rest => wellSeg n rest
  | n, .tool _ _ :: rest => wellSeg n rest
  | n, .done :: rest => wellSeg n rest

lemma segEndIds_append (l1 l2 : List Emission) :
    segEndIds (l1 ++ l2) = segEndIds l1 ++ segEndIds l2 := by
  simp [segEndIds, List.filterMap_append]

lemma wellSeg_append : ∀ (l1 l2 : List Emission) (n : Nat),
    wellSeg n l1 → wellSeg (n + (segEndIds l1).length) l2 → wellSeg n (l1 ++ l2)
  | [], l2, n, _, h2 => h2
  | .textUpd c k :: l1, l2, n, h1, h2 => by
    refine ⟨h1.1, wellSeg_append l1 l2 n h1.2 ?_⟩
    simpa [segEndIds, segEndId] using h2
  | .segmentEnd c k o :: l1, l2, n, h1, h2 => by
    refine ⟨h1.1, wellSeg_append l1 l2 (n + 1) h1.2 ?_⟩
    have : n + (segEndIds (Emission.segmentEnd c k o :: l1)).length
        = n + 1 + (segEndIds l1).length := by
      simp [segEndIds, segEndId]
      omega
    simpa [this] using h2
  | .thinking c :: l1, l2, n, h1, h2 => by
    refine wellSeg_append l1 l2 n h1 ?_
    simpa [segEndIds, segEndId] using h2
  | .tool a b :: l1, l2, n, h1, h2 => by
    refine wellSeg_append l1 l2 n h1 ?_
    simpa [segEndIds, segEndId] using h2
  | .done :: l1, l2, n, h1, h2 => by
    refine wellSeg_append l1 l2 n h1 ?_
    simpa [segEndIds, segEndId] using h2

/-- Under `wellSeg n`, the `segment_end` ids are the consecutive run
starting at `n`. -/
lemma wellSeg_ids : ∀ (ems : List Emission) (n : Nat), wellSeg n ems →
    segEndIds ems = List.range' n (segEndIds ems).length
  | [], _, _ => rfl
  | .textUpd c k :: ems, n, h => by
    simpa [segEndIds, segEndId] using wellSeg_ids ems n h.2
  | .segmentEnd c k o :: ems, n, h => by
    have ih := wellSeg_ids ems (n + 1) h.2
    simp only [segEndIds, List.filterMap_cons, segEndId] at ih ⊢
    rw [h.1, List.length_cons, List.range'_succ, ← ih]
  | .thinking c :: ems, n, h => by
    simpa [segEndIds, segEndId] using wellSeg_ids ems n h
  | .tool a b :: ems, n, h => by
    simpa [segEndIds, segEndId] using wellSeg_ids ems n h
  | .done :: ems, n, h => by
    simpa [segEndIds, segEndId] using wellSeg_ids ems n h

/-- Under `wellSeg n`, any `text` update carrying id `k + 1 ≥ n + 1` is
preceded by the `segment_end` carrying id `k`. -/
lemma wellSeg_text_pred : ∀ (l1 : List Emission) (n k : Nat) (c : String)
    (l2 : List Emission), wellSeg n (l1 ++ Emission.textUpd c (k + 1) :: l2) →
    n ≤ k → ∃ l1a d cau l1b, l1 = l1a ++ Emission.segmentEnd d k cau :: l1b
  | [], n, k, c, l2, h, hle => absurd h.1 (by omega)
  | .textUpd c0 j :: l1, n, k, c, l2, h, hle => by
    obtain ⟨l1a, d, cau, l1b, e⟩ := wellSeg_text_pred l1 n k c l2 h.2 hle
    exact ⟨.textUpd c0 j :: l1a, d, cau, l1b, by simp [e]⟩
  | .segmentEnd d0 j cau0 :: l1, n, k, c, l2, h, hle => by
    rcases Nat.eq_or_lt_of_le hle with he | hlt
    · exact ⟨[], d0, cau0, l1, by simp [h.1, he]⟩
    · obtain ⟨l1a, d, cau, l1b, e⟩ := wellSeg_text_pred l1 (n + 1) k c l2 h.2 hlt
      exact ⟨.segmentEnd d0 j cau0 :: l1a, d, cau, l1b, by simp [e]⟩
  | .thinking c0 :: l1, n, k, c, l2, h, hle => by
    obtain ⟨l1a, d, cau, l1b, e⟩ := wellSeg_text_pred l1 n k c l2 h hle
    exact ⟨.thinking c0 :: l1a, d, cau, l1b, by simp [e]⟩
  | .tool a b :: l1, n, k, c, l2, h, hle => by
    obtain ⟨l1a, d, cau, l1b, e⟩ := wellSeg_text_pred l1 n k c l2 h hle
    exact ⟨.tool a b :: l1a, d, cau, l1b, by simp [e]⟩
  | .done :: l1, n, k, c, l2, h, hle => by
    obtain ⟨l1a, d, cau, l1b, e⟩ := wellSeg_text_pred l1 n k c l2 h hle
    exact ⟨.done :: l1a, d, cau, l1b, by simp [e]⟩

/-! ### The segment-counter invariant through the loop -/

/-- A processing step starting with segment counter `n` produced
well-segmented emissions and left the counter advanced by the number of
`segment_end` emissions. -/
def SegStep (n : Nat) (st' : LoopState) (ems : List Emission) : Prop :=
  wellSeg n ems ∧ st'.currentSegmentId = n + (segEndIds ems).length

lemma segStep_comp {n : Nat} {st1 st2 : LoopState} {e1 e2 : List Emission}
    (h1 : SegStep n st1 e1) (h2 : SegStep st1.currentSegmentId st2 e2) :
    SegStep n st2 (e1 ++ e2) := by
  refine ⟨wellSeg_append _ _ _ h1.1 (h1.2 ▸ h2.1), ?_⟩
  have := h1.2
  have := h2.2
  simp only [segEndIds_append, List.length_append]
  omega

lemma segStep_processBlock (env : Env) (t : Nat) (st : LoopState) (i : Nat)
    (b : Block) :
    SegStep st.currentSegmentId (processBlock env t st i b).1
      (processBlock env t st i b).2 := by
  cases b <;> simp only [processBlock] <;> (try split_ifs) <;>
    simp_all [SegStep, wellSeg, segEndIds, segEndId]

lemma segStep_processBlocks (env : Env) (t : Nat) :
    ∀ (bs : List Block) (st : LoopState) (i : Nat),
    SegStep st.currentSegmentId (processBlocks env t st i bs).1
      (processBlocks env t st i bs).2
  | [], st, i => ⟨trivial, by simp [processBlocks, segEndIds]⟩
  | b :: bs, st, i => by
    have h1 := segStep_processBlock env t st i b
    have h2 := segStep_processBlocks env t bs (processBlock env t st i b).1 (i + 1)
    exact segStep_comp h1 h2

/-- `captureSession` touches only `sess.sessionId`. -/
lemma captureSession_fields (st : LoopState) (sid : Option String) :
    (captureSession st sid).currentSegmentId = st.currentSegmentId ∧
    (captureSession st sid).currentSegmentText = st.currentSegmentText ∧
    (captureSession st sid).processedToolIds = st.processedToolIds ∧
    (captureSession st sid).askUserTriggered = st.askUserTriggered ∧
    (captureSession st sid).responseParts = st.responseParts ∧
    (captureSession st sid).currentMsgId = st.currentMsgId ∧
    (captureSession st sid).processedBlockLengths = st.processedBlockLengths ∧
    (captureSession st sid).resultText = st.resultText ∧
    (captureSession st sid).promptTooLong = st.promptTooLong ∧
    (captureSession st sid).lastTextUpdate = st.lastTextUpdate := by
  cases sid
  · exact ⟨rfl, rfl, rfl, rfl, rfl, rfl, rfl, rfl, rfl, rfl⟩
  · simp only [captureSession]
    split_ifs <;> exact ⟨rfl, rfl, rfl, rfl, rfl, rfl, rfl, rfl, rfl, rfl⟩

lemma currentSegmentId_captureSession (st : LoopState) (sid : Option String) :
    (captureSession st sid).currentSegmentId = st.currentSegmentId :=
  (captureSession_fields st sid).1

/-- `msgReset` touches only `currentMsgId` and `processedBlockLengths`. -/
lemma msgReset_fields (st : LoopState) (msgId : String) :
    (msgReset st msgId).sess = st.sess ∧
    (msgReset st msgId).currentSegmentId = st.currentSegmentId ∧
    (msgReset st msgId).currentSegmentText = st.currentSegmentText ∧
    (msgReset st msgId).processedToolIds = st.processedToolIds ∧
    (msgReset st msgId).askUserTriggered = st.askUserTriggered ∧
    (msgReset st msgId).responseParts = st.responseParts ∧
    (msgReset st msgId).resultText = st.resultText ∧
    (msgReset st msgId).promptTooLong = st.promptTooLong ∧
    (msgReset st msgId).lastTextUpdate = st.lastTextUpdate := by
  simp only [msgReset]
  split_ifs <;> exact ⟨rfl, rfl, rfl, rfl, rfl, rfl, rfl, rfl, rfl⟩

lemma msgReset_currentMsgId (st : LoopState) (msgId : String) :
    (msgReset st msgId).currentMsgId = some msgId := by
  simp only [msgReset]
  split_ifs with h
  · rfl
  · exact not_not.mp h

lemma msgReset_of_eq {st : LoopState} {msgId : String}
    (h : st.currentMsgId = some msgId) : msgReset st msgId = st := by
  simp [msgReset, h]

/-- A result or meta event emits nothing and leaves all decode-loop
bookkeeping fields untouched (only `sess` fields, `resultText` and
`promptTooLong` may change). -/
lemma processEvent_result_fields (env : Env) (t : Nat) (st : LoopState)
    (sid rt : Option String) (u : Option Usage) (models : List ModelUsageEntry)
    (ie : Bool) (sub ef : Option String) :
    (processEvent env t st (.result sid rt u models ie sub ef)).ems = [] ∧
    (processEvent env t st (.result sid rt u models ie sub ef)).st.currentSegmentId
      = st.currentSegmentId ∧
    (processEvent env t st (.result sid rt u models ie sub ef)).st.currentSegmentText
      = st.currentSegmentText ∧
    (processEvent env t st (.result sid rt u models ie sub ef)).st.processedToolIds
      = st.processedToolIds ∧
    (processEvent env t st (.result sid rt u models ie sub ef)).st.askUserTriggered
      = st.askUserTriggered ∧
    (processEvent env t st (.result sid rt u models ie sub ef)).st.responseParts
      = st.responseParts := by
  have hc := captureSession_fields st sid
  simp only [processEvent]
  split_ifs <;> (repeat' split) <;>
    simp_all

lemma segStep_processEvent (env : Env) (t : Nat) (st : LoopState)
    (ev : StreamEvent) :
    SegStep st.currentSegmentId (processEvent env t st ev).st
      (processEvent env t st ev).ems := by
  cases ev with
  | assistant sid msgId content =>
    have key : ∀ stB : LoopState, stB.currentSegmentId = st.currentSegmentId →
        SegStep st.currentSegmentId (processBlocks env t stB 0 content).1
          (processBlocks env t stB 0 content).2 := by
      intro stB hB
      have := segStep_processBlocks env t content stB 0
      rwa [hB] at this
    simp only [processEvent]
    exact key _ ((msgReset_fields _ _).2.1.trans
      (currentSegmentId_captureSession st sid))
  | result sid rt u models ie sub ef =>
    have h := processEvent_result_fields env t st sid rt u models ie sub ef
    refine ⟨?_, ?_⟩
    · rw [h.1]; exact trivial
    · rw [h.1, h.2.1]; simp [segEndIds]
  | meta sid =>
    exact ⟨trivial, by simp [processEvent, segEndIds,
      currentSegmentId_captureSession]⟩

lemma segStep_runLoop (env : Env) :
    ∀ (lines : List Line) (st : LoopState),
    SegStep st.currentSegmentId (runLoop env st lines).st
      (runLoop env st lines).ems
  | [], st => ⟨trivial, by simp [runLoop, segEndIds]⟩
  | line :: rest, st => by
    simp only [runLoop]
    split_ifs with hstop
    · exact ⟨trivial, by simp [segEndIds]⟩
    · cases hp : line.parsed with
      | none => simpa using segStep_runLoop env rest st
      | some ev =>
        simp only
        have h1 := segStep_processEvent env line.time st ev
        cases ht : (processEvent env line.time st ev).thrown with
        | some m => simpa using h1
        | none =>
          simp only
          split_ifs with hask
          · exact h1
          · exact segStep_comp h1 (segStep_runLoop env rest (processEvent env line.time st ev).st)

lemma wellSeg_flush (l : List Emission) (n : Nat) (c : String)
    (cau : Option String) (h : wellSeg n l) :
    wellSeg n ((l ++ [Emission.segmentEnd c (n + (segEndIds l).length) cau])
      ++ [Emission.done]) := by
  refine wellSeg_append _ [Emission.done] n ?_ trivial
  exact wellSeg_append l [Emission.segmentEnd c (n + (segEndIds l).length) cau]
    n h ⟨rfl, trivial⟩

lemma wellSeg_runEpilogue (inp : RunInput) (stdin : String) (lr : LoopOut)
    (tooLong : Bool) (h : SegStep 0 lr.st lr.ems) :
    wellSeg 0 (runEpilogue inp stdin lr tooLong).ems := by
  have hdone : ∀ (l : List Emission) (n : Nat), wellSeg n l →
      wellSeg n (l ++ [Emission.done]) :=
    fun l n hl => wellSeg_append l [Emission.done] n hl trivial
  simp only [runEpilogue]
  split_ifs <;> dsimp only <;>
    first
      | exact hdone _ _ h.1
      | (simp only [List.append_nil]; exact hdone _ _ h.1)
      | (rw [h.2]; exact wellSeg_flush lr.ems 0 _ none h.1)

lemma wellSeg_finishRun (inp : RunInput) (stdin : String) (lr : LoopOut)
    (h : SegStep 0 lr.st lr.ems) :
    wellSeg 0 (finishRun inp stdin lr).ems := by
  have hcatch : ∀ (tooLong : Bool) (m : String),
      wellSeg 0 (catchBlock inp stdin lr tooLong m).ems := by
    intro tooLong m
    simp only [catchBlock]
    split_ifs
    · exact wellSeg_runEpilogue _ _ _ _ h
    · exact h.1
  simp only [finishRun]
  cases hth : lr.thrown with
  | some m => exact hcatch _ m
  | none =>
    split_ifs
    · exact hcatch _ _
    · exact wellSeg_runEpilogue _ _ _ _ h

lemma wellSeg_run (env : Env) (sess0 : SessState) (inp : RunInput) :
    wellSeg 0 (sendMessageStreaming env sess0 inp).ems := by
  simp only [sendMessageStreaming]
  split_ifs with hstop
  · exact trivial
  · exact wellSeg_finishRun _ _ _
      (segStep_runLoop env inp.lines (initLoopState sess0))

/-! ### Concrete fixtures used by witnesses and counterexamples -/

/-- A concrete environment: tool display is the tool name, `ctx`/`chatId`
absent, ask polls never succeed. -/
def envFix : Env :=
  { fmt := fun n _ => n, hasCtxChat := false, askPoll := fun _ => false }

/-- A live session that is already active (session id present). -/
def sessFix : SessState :=
  { sessionId := some "sess-1", conversationTitle := some "T"
    lastActivity := some 1, lastError := none, lastUsage := none
    contextPercent := none, currentTool := none, lastTool := none
    workingDir := "D:/proj" }

/-- A decoded line with no stop request. -/
def mkLine (t : Nat) (ev : StreamEvent) : Line :=
  { stopFlag := false, time := t, parsed := some ev }

/-- Input with two text segments separated by one tool use, then a normal
result. -/
def inpSeg : RunInput :=
  { message := "hi", dateStr := "D", stopBeforeSpawn := false
    lines :=
      [mkLine 1000 (.assistant none "m1" [.text "this is a long enough text"]),
       mkLine 1000 (.assistant none "m1"
         [.text "this is a long enough text", .toolUse "tu1" "Bash" []]),
       mkLine 2000 (.assistant none "m2"
         [.text "second segment, also long enough"]),
       mkLine 0 (.result none (some "final result") none [] false none none)]
    stderrChunks := [], exitCode := 0, stopAtEnd := false, endTime := 9 }

/-- Stream of one error-marked result event whose text matches the
context-limit pattern set; clean stderr, exit code 0. -/
def inpErrResult : RunInput :=
  { message := "hi", dateStr := "D", stopBeforeSpawn := false
    lines :=
      [mkLine 0 (.result none (some "Prompt is too long") none [] true none none)]
    stderrChunks := [], exitCode := 0, stopAtEnd := false, endTime := 9 }

/-- Stream that accumulates segment text and then receives a non-error
result whose text matches the context-limit pattern set. -/
def inpTooLong : RunInput :=
  { message := "hi", dateStr := "D", stopBeforeSpawn := false
    lines :=
      [mkLine 0 (.assistant none "m1" [.text "unfinished answer"]),
       mkLine 0 (.result none (some "Error: conversation is too long") none []
         false none none)]
    stderrChunks := [], exitCode := 0, stopAtEnd := false, endTime := 9 }

/-- C1 (behavior of the code at the failing input): a result event that is
marked as an error and whose text matches a context-limit pattern sets the
too-long flag (third conjunct) but the raised `CLI error: …` escapes the
catch block, so the query ends as a generic raised failure (first
conjunct) with the session identity still in place (second conjunct) —
the dedicated context-limit outcome and the session clear never happen. -/
theorem c1_error_marked_too_long_keeps_session :
    (sendMessageStreaming envFix sessFix inpErrResult).outcome
      = .thrown "CLI error: Prompt is too long" ∧
    (sendMessageStreaming envFix sessFix inpErrResult).sess.sessionId
      = some "sess-1" ∧
    (sendMessageStreaming envFix sessFix inpErrResult).finalLoop.map
      LoopState.promptTooLong = some true := by
  decide

/-- C5 counterexample: a query that terminates through the context-limit
auto-reset while its segment holds the accumulated text
`"unfinished answer"` delivers no `segment_end` at all — the emissions are
exactly `[done]` — refuting delivery of `segment_end` under every
termination mode. -/
theorem c5_auto_reset_drops_final_segment_end :
    (sendMessageStreaming envFix sessFix inpTooLong).outcome
      = .ok contextLimitMsg ∧
    (sendMessageStreaming envFix sessFix inpTooLong).finalLoop.map
      LoopState.currentSegmentText = some "unfinished answer" ∧
    (sendMessageStreaming envFix sessFix inpTooLong).ems = [.done] := by
  decide

/-- C4: within any query, the `segment_end` ids are exactly
`0, 1, 2, …` in order (strictly increasing, gap-free, starting at 0), and
any `text` update carrying segment id `k + 1` is preceded by the
`segment_end` carrying id `k`. -/
theorem c4_segment_ordering (env : Env) (sess0 : SessState) (inp : RunInput) :
    segEndIds (sendMessageStreaming env sess0 inp).ems
      = List.range (segEndIds (sendMessageStreaming env sess0 inp).ems).length
    ∧ ∀ (l1 : List Emission) (c : String) (k : Nat) (l2 : List Emission),
        (sendMessageStreaming env sess0 inp).ems
          = l1 ++ Emission.textUpd c (k + 1) :: l2 →
        ∃ l1a d cau l1b, l1 = l1a ++ Emission.segmentEnd d k cau :: l1b := by
  have hw := wellSeg_run env sess0 inp
  constructor
  · have := wellSeg_ids _ 0 hw
    simpa [List.range_eq_range'] using this
  · intro l1 c k l2 he
    exact wellSeg_text_pred l1 0 k c l2 (he ▸ hw) (Nat.zero_le k)

/-- C4 witness: on `inpSeg` the query emits ids `[0, 1]` for its two
`segment_end`s, and the theorem applied to the `text` update of segment 1
exhibits the preceding `segment_end` of segment 0. -/
theorem c4_segment_ordering_witness :
    segEndIds (sendMessageStreaming envFix sessFix inpSeg).ems = [0, 1] ∧
    ∃ l1a d cau l1b,
      ([Emission.textUpd "this is a long enough text" 0,
        Emission.segmentEnd "this is a long enough text" 0 (some "tu1"),
        Emission.tool "tu1" "Bash"] : List Emission)
        = l1a ++ Emission.segmentEnd d 0 cau :: l1b := by
  constructor
  · decide
  · exact (c4_segment_ordering envFix sessFix inpSeg).2
      [Emission.textUpd "this is a long enough text" 0,
       Emission.segmentEnd "this is a long enough text" 0 (some "tu1"),
       Emission.tool "tu1" "Bash"]
      "second segment, also long enough" 0
      [Emission.segmentEnd "second segment, also long enough" 1 none,
       Emission.done]
      (by decide)

lemma runEpilogue_flush (inp : RunInput) (stdin : String) (lr : LoopOut)
    (tooLong : Bool) (lp : LoopState)
    (hterm : (runEpilogue inp stdin lr tooLong).term = TermKind.normal)
    (hlp : (runEpilogue inp stdin lr tooLong).finalLoop = some lp)
    (hne : lp.currentSegmentText ≠ "") :
    ∃ l, (runEpilogue inp stdin lr tooLong).ems
      = l ++ [Emission.segmentEnd lp.currentSegmentText lp.currentSegmentId
                none,
              Emission.done] := by
  by_cases h1 : tooLong = true
  · simp [runEpilogue, h1] at hterm
  · by_cases h2 : lr.st.askUserTriggered = true
    · simp [runEpilogue, h1, h2] at hterm
    · have hlp2 : lr.st = lp := by
        simpa [runEpilogue, h1, h2] using hlp
      subst hlp2
      refine ⟨lr.ems, ?_⟩
      simp [runEpilogue, h1, h2, hne, List.append_assoc]

lemma catchBlock_flush (inp : RunInput) (stdin : String) (lr : LoopOut)
    (tooLong : Bool) (m : String) (lp : LoopState)
    (hterm : (catchBlock inp stdin lr tooLong m).term = TermKind.normal)
    (hlp : (catchBlock inp stdin lr tooLong m).finalLoop = some lp)
    (hne : lp.currentSegmentText ≠ "") :
    ∃ l, (catchBlock inp stdin lr tooLong m).ems
      = l ++ [Emission.segmentEnd lp.currentSegmentText lp.currentSegmentId
                none,
              Emission.done] := by
  simp only [catchBlock]
  simp only [catchBlock] at hterm hlp
  split_ifs at hterm hlp ⊢ with hs
  exact runEpilogue_flush inp stdin lr tooLong lp hterm hlp hne

/-- C5 amended: every segment id receives at most one `segment_end`
(tool-closed segments get theirs at the boundary, by the ordering
invariant), and when the query terminates normally with nonempty trailing
segment text, that text is delivered in a final `segment_end` right
before `done`; on context-limit auto-reset or ask-user suspension the
trailing open segment receives no `segment_end`
(`c5_auto_reset_drops_final_segment_end`). -/
theorem c5_segment_end_amended (env : Env) (sess0 : SessState)
    (inp : RunInput) :
    (segEndIds (sendMessageStreaming env sess0 inp).ems).Nodup ∧
    ∀ lp : LoopState,
      (sendMessageStreaming env sess0 inp).term = TermKind.normal →
      (sendMessageStreaming env sess0 inp).finalLoop = some lp →
      lp.currentSegmentText ≠ "" →
      ∃ l, (sendMessageStreaming env sess0 inp).ems
        = l ++ [Emission.segmentEnd lp.currentSegmentText
                  lp.currentSegmentId none,
                Emission.done] := by
  constructor
  · have hw := wellSeg_ids _ 0 (wellSeg_run env sess0 inp)
    rw [hw, ← List.range_eq_range']
    exact List.nodup_range _
  · intro lp hterm hlp hne
    revert hterm hlp
    simp only [sendMessageStreaming]
    split_ifs with hstop
    · intro hterm; exact absurd hterm (by simp)
    · simp only [finishRun]
      cases hth : (runLoop env (initLoopState sess0) inp.lines).thrown with
      | some m =>
        intro hterm hlp
        exact catchBlock_flush _ _ _ _ _ lp hterm hlp hne
      | none =>
        split_ifs with hexit
        · intro hterm hlp
          exact catchBlock_flush _ _ _ _ _ lp hterm hlp hne
        · intro hterm hlp
          exact runEpilogue_flush _ _ _ _ lp hterm hlp hne

/-- C5 amended witness: on `inpSeg` (normal completion) the `segment_end`
ids are duplicate-free and the trailing segment text is delivered right
before `done`. -/
theorem c5_segment_end_amended_witness :
    (segEndIds (sendMessageStreaming envFix sessFix inpSeg).ems).Nodup ∧
    ∃ l, (sendMessageStreaming envFix sessFix inpSeg).ems
      = l ++ [Emission.segmentEnd "second segment, also long enough" 1 none,
              Emission.done] := by
  refine ⟨(c5_segment_end_amended envFix sessFix inpSeg).1, ?_⟩
  obtain ⟨l, hl⟩ := (c5_segment_end_amended envFix sessFix inpSeg).2
    (((sendMessageStreaming envFix sessFix inpSeg).finalLoop).getD
      (initLoopState sessFix))
    (by decide) (by decide) (by decide)
  refine ⟨l, ?_⟩
  rw [hl]
  have h1 : (((sendMessageStreaming envFix sessFix inpSeg).finalLoop).getD
      (initLoopState sessFix)).currentSegmentText
      = "second segment, also long enough" := by decide
  have h2 : (((sendMessageStreaming envFix sessFix inpSeg).finalLoop).getD
      (initLoopState sessFix)).currentSegmentId = 1 := by decide
  rw [h1, h2]

/-! ### Tool-use counting (at-most-once per id) -/

/-- A `tool` status emission attributed to tool-use id `id`. -/
def isToolFor (id : String) : Emission → Bool
  | .tool tid _ => tid == id
  | _ => false

/-- A segment boundary (`segment_end` followed by a segment-id increment)
caused by tool-use id `id`. -/
def isSegFor (id : String) : Emission → Bool
  | .segmentEnd _ _ (some tid) => tid == id
  | _ => false

/-- 1 when the id is already in the processed set, else 0. -/
def markOf (st : LoopState) (id : String) : Nat :=
  if id ∈ st.processedToolIds then 1 else 0

/-- Counting invariant of a processing step: the emissions attributed to
`id` plus the previous mark are bounded by the new mark (hence the mark
never decreases, and emissions for `id` happen only when its mark rises
from 0 to 1). -/
def ToolStep (id : String) (m : Nat) (st' : LoopState)
    (ems : List Emission) : Prop :=
  ems.countP (isToolFor id) + m ≤ markOf st' id ∧
  ems.countP (isSegFor id) + m ≤ markOf st' id

lemma toolStep_comp {id : String} {m : Nat} {st1 st2 : LoopState}
    {e1 e2 : List Emission} (h1 : ToolStep id m st1 e1)
    (h2 : ToolStep id (markOf st1 id) st2 e2) :
    ToolStep id m st2 (e1 ++ e2) := by
  have a1 := h1.1; have a2 := h1.2; have b1 := h2.1; have b2 := h2.2
  constructor <;> simp only [List.countP_append] <;> omega

lemma toolStep_processBlock (env : Env) (t : Nat) (st : LoopState) (i : Nat)
    (b : Block) (id : String) :
    ToolStep id (markOf st id) (processBlock env t st i b).1
      (processBlock env t st i b).2 := by
  cases b with
  | thinking c =>
    simp only [processBlock]
    split_ifs <;> simp [ToolStep, markOf, isToolFor, isSegFor]
  | text c =>
    simp only [processBlock]
    split_ifs <;> simp [ToolStep, markOf, isToolFor, isSegFor]
  | toolUse id0 name input =>
    by_cases hid : id0 = id
    · subst hid
      simp only [processBlock]
      split_ifs <;>
        simp_all [ToolStep, markOf, isToolFor, isSegFor, List.countP_append,
          List.countP_cons, List.countP_nil, List.mem_cons]
    · have hid2 : ¬id = id0 := fun e => hid e.symm
      simp only [processBlock]
      split_ifs <;>
        simp_all [ToolStep, markOf, isToolFor, isSegFor, List.countP_append,
          List.countP_cons, List.countP_nil, List.mem_cons]
  | other => simp [processBlock, ToolStep, markOf]

lemma toolStep_processBlocks (env : Env) (t : Nat) (id : String) :
    ∀ (bs : List Block) (st : LoopState) (i : Nat),
    ToolStep id (markOf st id) (processBlocks env t st i bs).1
      (processBlocks env t st i bs).2
  | [], st, i => by simp [processBlocks, ToolStep, markOf]
  | b :: bs, st, i => by
    have h1 := toolStep_processBlock env t st i b id
    have h2 := toolStep_processBlocks env t id bs (processBlock env t st i b).1 (i + 1)
    exact toolStep_comp h1 h2

lemma toolStep_processEvent (env : Env) (t : Nat) (st : LoopState)
    (ev : StreamEvent) (id : String) :
    ToolStep id (markOf st id) (processEvent env t st ev).st
      (processEvent env t st ev).ems := by
  cases ev with
  | assistant sid msgId content =>
    have key : ∀ stB : LoopState,
        stB.processedToolIds = st.processedToolIds →
        ToolStep id (markOf st id) (processBlocks env t stB 0 content).1
          (processBlocks env t stB 0 content).2 := by
      intro stB hB
      have := toolStep_processBlocks env t id content stB 0
      rwa [show markOf stB id = markOf st id by simp [markOf, hB]] at this
    simp only [processEvent]
    exact key _ ((msgReset_fields _ _).2.2.2.1.trans
      (captureSession_fields st sid).2.2.1)
  | result sid rt u models ie sub ef =>
    have h := processEvent_result_fields env t st sid rt u models ie sub ef
    constructor <;> simp [markOf, h.1, h.2.2.2.1]
  | meta sid =>
    constructor <;>
      simp [processEvent, markOf, (captureSession_fields st sid).2.2.1]

lemma toolStep_runLoop (env : Env) (id : String) :
    ∀ (lines : List Line) (st : LoopState),
    ToolStep id (markOf st id) (runLoop env st lines).st
      (runLoop env st lines).ems
  | [], st => by simp [runLoop, ToolStep, markOf]
  | line :: rest, st => by
    simp only [runLoop]
    split_ifs with hstop
    · simp [ToolStep, markOf]
    · cases hp : line.parsed with
      | none => simpa using toolStep_runLoop env id rest st
      | some ev =>
        simp only
        have h1 := toolStep_processEvent env line.time st ev id
        cases ht : (processEvent env line.time st ev).thrown with
        | some m => simpa using h1
        | none =>
          simp only
          split_ifs with hask
          · exact h1
          · exact toolStep_comp h1
              (toolStep_runLoop env id rest (processEvent env line.time st ev).st)

lemma toolCounts_runEpilogue (inp : RunInput) (stdin : String) (lr : LoopOut)
    (tooLong : Bool) (id : String)
    (h : ToolStep id 0 lr.st lr.ems) :
    (runEpilogue inp stdin lr tooLong).ems.countP (isToolFor id) ≤ 1 ∧
    (runEpilogue inp stdin lr tooLong).ems.countP (isSegFor id) ≤ 1 := by
  have a1 := h.1; have a2 := h.2
  have hm : markOf lr.st id ≤ 1 := by simp [markOf]; split_ifs <;> omega
  simp only [runEpilogue]
  split_ifs <;> dsimp only <;>
    constructor <;>
      simp_all [List.countP_append, isToolFor, isSegFor, List.countP_cons] <;>
      omega

lemma toolCounts_run (env : Env) (sess0 : SessState) (inp : RunInput)
    (id : String) :
    (sendMessageStreaming env sess0 inp).ems.countP (isToolFor id) ≤ 1 ∧
    (sendMessageStreaming env sess0 inp).ems.countP (isSegFor id) ≤ 1 := by
  simp only [sendMessageStreaming]
  split_ifs with hstop
  · simp
  · have hloop := toolStep_runLoop env id inp.lines (initLoopState sess0)
    have h0 : markOf (initLoopState sess0) id = 0 := by
      simp [markOf, initLoopState]
    rw [h0] at hloop
    set lr := runLoop env (initLoopState sess0) inp.lines with hlr
    have hm : markOf lr.st id ≤ 1 := by simp [markOf]; split_ifs <;> omega
    have hcatch : ∀ (stdin : String) (tooLong : Bool) (m : String),
        (catchBlock inp stdin lr tooLong m).ems.countP (isToolFor id) ≤ 1 ∧
        (catchBlock inp stdin lr tooLong m).ems.countP (isSegFor id) ≤ 1 := by
      intro stdin tooLong m
      simp only [catchBlock]
      split_ifs
      · exact toolCounts_runEpilogue _ _ _ _ _ hloop
      · have := hloop.1; have := hloop.2
        constructor <;> dsimp only <;> omega
    simp only [finishRun]
    cases hth : lr.thrown with
    | some m => exact hcatch _ _ m
    | none =>
      split_ifs
      · exact hcatch _ _ _
      · exact toolCounts_runEpilogue _ _ _ _ _ hloop

/-- C2: the same tool-use id appearing on any number of decoded lines of
one query produces at most one `tool` status emission and at most one
tool-caused segment boundary, and once the id is recorded as processed a
further sighting produces no emission attributed to it at all. -/
theorem c2_tool_use_at_most_once (env : Env) (sess0 : SessState)
    (inp : RunInput) (id : String) :
    ((sendMessageStreaming env sess0 inp).ems.countP (isToolFor id) ≤ 1 ∧
     (sendMessageStreaming env sess0 inp).ems.countP (isSegFor id) ≤ 1) ∧
    ∀ (t : Nat) (st : LoopState) (i : Nat) (bs : List Block),
      id ∈ st.processedToolIds →
      (processBlocks env t st i bs).2.countP (isToolFor id) = 0 ∧
      (processBlocks env t st i bs).2.countP (isSegFor id) = 0 := by
  refine ⟨toolCounts_run env sess0 inp id, ?_⟩
  intro t st i bs hmem
  have h := toolStep_processBlocks env t id bs st i
  have hm : markOf st id = 1 := by simp [markOf, hmem]
  have hm2 : markOf (processBlocks env t st i bs).1 id ≤ 1 := by
    simp [markOf]; split_ifs <;> omega
  rw [hm] at h
  have := h.1; have := h.2
  omega

/-- C2 witness: a query whose stream carries the same tool-use id on two
lines emits exactly one `tool` status and one boundary for it, and a
state that already processed the id yields no further emissions for it. -/
theorem c2_tool_use_at_most_once_witness :
    ((sendMessageStreaming envFix sessFix inpSeg).ems.countP (isToolFor "tu1") ≤ 1 ∧
     (sendMessageStreaming envFix sessFix inpSeg).ems.countP (isSegFor "tu1") ≤ 1) ∧
    ((processBlocks envFix 0
        { initLoopState sessFix with processedToolIds := ["tu1"] } 0
        [Block.toolUse "tu1" "Bash" []]).2.countP (isToolFor "tu1") = 0 ∧
     (processBlocks envFix 0
        { initLoopState sessFix with processedToolIds := ["tu1"] } 0
        [Block.toolUse "tu1" "Bash" []]).2.countP (isSegFor "tu1") = 0) :=
  ⟨(c2_tool_use_at_most_once envFix sessFix inpSeg "tu1").1,
   (c2_tool_use_at_most_once envFix sessFix inpSeg "tu1").2 0
     { initLoopState sessFix with processedToolIds := ["tu1"] } 0
     [Block.toolUse "tu1" "Bash" []] (by decide)⟩

/-! ### Replay idempotence of block processing -/

/-- A block at position `i` is saturated in a state: reprocessing it
produces no output and no state change. -/
def Saturated (st : LoopState) (i : Nat) : Block → Prop
  | .thinking c => c = "" ∨ strLen c ≤ st.processedBlockLengths.getD i 0
  | .text c => c = "" ∨ strLen c ≤ st.processedBlockLengths.getD i 0
  | .toolUse id _ _ => id = "" ∨ id ∈ st.processedToolIds
  | .other => True

lemma processBlock_of_saturated (env : Env) (t : Nat) (st : LoopState)
    (i : Nat) (b : Block) (h : Saturated st i b) :
    processBlock env t st i b = (st, []) := by
  cases b with
  | thinking c =>
    simp only [Saturated] at h
    simp only [processBlock]
    rw [if_neg]
    rcases h with h | h
    · exact fun hc => hc.1 h
    · exact fun hc => absurd hc.2 (by omega)
  | text c =>
    simp only [Saturated] at h
    simp only [processBlock]
    rw [if_neg]
    rcases h with h | h
    · exact fun hc => hc.1 h
    · exact fun hc => absurd hc.2 (by omega)
  | toolUse id name input =>
    simp only [Saturated] at h
    simp only [processBlock]
    rw [if_neg]
    rcases h with h | h
    · exact fun hc => hc.1 h
    · exact fun hc => hc.2 h
  | other => rfl

lemma processBlock_saturates_self (env : Env) (t : Nat) (st : LoopState)
    (i : Nat) (b : Block) :
    Saturated (processBlock env t st i b).1 i b := by
  cases b with
  | thinking c =>
    simp only [processBlock]
    split_ifs with h
    · exact Or.inr (le_of_eq (getD_setPad_self _ _ _).symm)
    · simp only [Saturated]
      rcases not_and_or.mp h with h | h
      · exact Or.inl (not_not.mp h)
      · exact Or.inr (by omega)
  | text c =>
    simp only [processBlock]
    split_ifs with h h2
    · exact Or.inr (le_of_eq (getD_setPad_self _ _ _).symm)
    · exact Or.inr (le_of_eq (getD_setPad_self _ _ _).symm)
    · simp only [Saturated]
      rcases not_and_or.mp h with h | h
      · exact Or.inl (not_not.mp h)
      · exact Or.inr (by omega)
  | toolUse id name input =>
    simp only [processBlock]
    split_ifs with h <;> simp only [Saturated] <;>
      first
        | exact Or.inr (List.mem_cons_self _ _)
        | (rcases not_and_or.mp h with h | h
           · exact Or.inl (not_not.mp h)
           · exact Or.inr (not_not.mp h))
  | other => trivial

lemma processBlock_preserves (env : Env) (t : Nat) (st : LoopState)
    (i : Nat) (b : Block) (j : Nat) (hij : i ≠ j) :
    (processBlock env t st i b).1.processedBlockLengths.getD j 0
        = st.processedBlockLengths.getD j 0 ∧
    ∀ id, id ∈ st.processedToolIds →
      id ∈ (processBlock env t st i b).1.processedToolIds := by
  cases b with
  | thinking c =>
    simp only [processBlock]
    split_ifs
    · exact ⟨getD_setPad_ne _ _ _ _ hij, fun id hid => hid⟩
    · exact ⟨rfl, fun id hid => hid⟩
  | text c =>
    simp only [processBlock]
    split_ifs
    · exact ⟨getD_setPad_ne _ _ _ _ hij, fun id hid => hid⟩
    · exact ⟨getD_setPad_ne _ _ _ _ hij, fun id hid => hid⟩
    · exact ⟨rfl, fun id hid => hid⟩
  | toolUse id0 name input =>
    simp only [processBlock]
    split_ifs <;>
      first
        | exact ⟨getD_setPad_ne _ _ _ _ hij,
            fun id hid => List.mem_cons_of_mem _ hid⟩
        | exact ⟨rfl, fun id hid => hid⟩
  | other => exact ⟨rfl, fun id hid => hid⟩

lemma saturated_processBlock (env : Env) (t : Nat) (st : LoopState)
    (i : Nat) (b : Block) (j : Nat) (b0 : Block) (hij : i ≠ j)
    (h : Saturated st j b0) :
    Saturated (processBlock env t st i b).1 j b0 := by
  have hp := processBlock_preserves env t st i b j hij
  cases b0 with
  | thinking c =>
    simp only [Saturated] at h ⊢
    rw [hp.1]; exact h
  | text c =>
    simp only [Saturated] at h ⊢
    rw [hp.1]; exact h
  | toolUse id name input =>
    simp only [Saturated] at h ⊢
    exact h.imp (fun e => e) (hp.2 id)
  | other => trivial

lemma saturated_processBlocks (env : Env) (t : Nat) :
    ∀ (bs : List Block) (st : LoopState) (i j : Nat) (b0 : Block),
    j < i → Saturated st j b0 →
    Saturated (processBlocks env t st i bs).1 j b0
  | [], st, i, j, b0, _, h => h
  | b :: bs, st, i, j, b0, hji, h => by
    simp only [processBlocks]
    exact saturated_processBlocks env t bs (processBlock env t st i b).1 (i + 1)
      j b0 (by omega)
      (saturated_processBlock env t st i b j b0 (by omega) h)

lemma processBlocks_replay (env : Env) :
    ∀ (bs : List Block) (st : LoopState) (i : Nat) (t t' : Nat),
    processBlocks env t' (processBlocks env t st i bs).1 i bs
      = ((processBlocks env t st i bs).1, [])
  | [], st, i, t, t' => rfl
  | b :: bs, st, i, t, t' => by
    have hsat : Saturated (processBlocks env t (processBlock env t st i b).1
        (i + 1) bs).1 i b :=
      saturated_processBlocks env t bs (processBlock env t st i b).1 (i + 1)
        i b (by omega) (processBlock_saturates_self env t st i b)
    have h1 : processBlock env t'
        (processBlocks env t (processBlock env t st i b).1 (i + 1) bs).1 i b
        = ((processBlocks env t (processBlock env t st i b).1 (i + 1) bs).1,
           []) :=
      processBlock_of_saturated env t' _ i b hsat
    have h2 := processBlocks_replay env bs (processBlock env t st i b).1
      (i + 1) t t'
    simp only [processBlocks, h1, h2, List.nil_append]

lemma processBlock_preserves_meta (env : Env) (t : Nat) (st : LoopState)
    (i : Nat) (b : Block) :
    (processBlock env t st i b).1.sess.sessionId = st.sess.sessionId ∧
    (processBlock env t st i b).1.currentMsgId = st.currentMsgId := by
  cases b <;> simp only [processBlock] <;> (try split_ifs) <;>
    first
      | exact ⟨rfl, rfl⟩
      | simp

lemma processBlocks_preserves_meta (env : Env) (t : Nat) :
    ∀ (bs : List Block) (st : LoopState) (i : Nat),
    (processBlocks env t st i bs).1.sess.sessionId = st.sess.sessionId ∧
    (processBlocks env t st i bs).1.currentMsgId = st.currentMsgId
  | [], st, i => ⟨rfl, rfl⟩
  | b :: bs, st, i => by
    have h1 := processBlock_preserves_meta env t st i b
    have h2 := processBlocks_preserves_meta env t bs
      (processBlock env t st i b).1 (i + 1)
    exact ⟨h2.1.trans h1.1, h2.2.trans h1.2⟩

/-- Once the session id captured by `captureSession st sid` is in place,
a second capture against the same event id is the identity. -/
lemma captureSession_stable (st : LoopState) (sid : Option String)
    (st' : LoopState)
    (h : st'.sess.sessionId = (captureSession st sid).sess.sessionId) :
    captureSession st' sid = st' := by
  cases sid with
  | none => rfl
  | some s =>
    simp only [captureSession]
    rw [if_neg]
    rintro ⟨hs, hnone⟩
    by_cases hc : s ≠ "" ∧ st.sess.sessionId = none
    · rw [captureSession, if_pos hc] at h
      simp only at h
      rw [hnone] at h
      exact Option.noConfusion h
    · rw [captureSession, if_neg hc] at h
      rcases not_and_or.mp hc with h' | h'
      · exact h' hs
      · exact h' (h.symm.trans hnone)

/-- C3: replaying an identical assistant-turn line is a no-op — the
second processing changes nothing in the loop state (in particular no
text delta reaches the response buffer or the current segment) and emits
nothing (in particular no second `thinking` emission); assistant lines
never raise. -/
theorem c3_dedup_idempotent (env : Env) (t t' : Nat) (st : LoopState)
    (sid : Option String) (msgId : String) (content : List Block) :
    (processEvent env t st (.assistant sid msgId content)).thrown = none ∧
    processEvent env t'
        (processEvent env t st (.assistant sid msgId content)).st
        (.assistant sid msgId content)
      = ⟨(processEvent env t st (.assistant sid msgId content)).st, [],
         none⟩ := by
  have hunfold : ∀ (tt : Nat) (stX : LoopState),
      processEvent env tt stX (.assistant sid msgId content)
        = ⟨(processBlocks env tt (msgReset (captureSession stX sid) msgId)
              0 content).1,
           (processBlocks env tt (msgReset (captureSession stX sid) msgId)
              0 content).2,
           none⟩ := fun tt stX => rfl
  refine ⟨by rw [hunfold], ?_⟩
  simp only [hunfold]
  have hmeta := processBlocks_preserves_meta env t content
    (msgReset (captureSession st sid) msgId) 0
  have hcap : captureSession
      (processBlocks env t (msgReset (captureSession st sid) msgId)
        0 content).1 sid
      = (processBlocks env t (msgReset (captureSession st sid) msgId)
          0 content).1 := by
    apply captureSession_stable st sid
    rw [hmeta.1, (msgReset_fields _ _).1]
  have hmsg : (processBlocks env t (msgReset (captureSession st sid) msgId)
      0 content).1.currentMsgId = some msgId :=
    hmeta.2.trans (msgReset_currentMsgId _ _)
  rw [hcap, msgReset_of_eq hmsg, processBlocks_replay env content
    (msgReset (captureSession st sid) msgId) 0 t t']

/-! ### Session-store properties -/

lemma saveSession_length_le (live : SessState) (savedAt : String)
    (h : SessionHistory) (hle : h.sessions.length ≤ 5) :
    (saveSession live savedAt h).sessions.length ≤ 5 := by
  simp only [saveSession]
  cases hs : live.sessionId with
  | none => exact hle
  | some sid =>
    simp only
    have htake : ∀ l : List SavedSession, (l.take MAX_SESSIONS).length ≤ 5 := by
      intro l
      simp only [List.length_take, MAX_SESSIONS]
      omega
    split_ifs with hempty
    · exact hle
    · split <;> exact htake _

lemma foldl_saveSession_le :
    ∀ (saves : List (SessState × String)) (h : SessionHistory),
    h.sessions.length ≤ 5 →
    ((saves.foldl (fun acc p => saveSession p.1 p.2 acc) h).sessions.length
      ≤ 5)
  | [], _, hle => hle
  | p :: saves, h, hle =>
    foldl_saveSession_le saves _ (saveSession_length_le p.1 p.2 h hle)

/-- C6: starting from an empty history, any sequence of saves leaves at
most 5 entries; in particular six saves under distinct session ids leave
exactly the last five, newest first — the first-saved id `s1` is
evicted. -/
theorem c6_history_bound :
    (∀ saves : List (SessState × String),
      ((saves.foldl (fun acc p => saveSession p.1 p.2 acc)
          (⟨[]⟩ : SessionHistory)).sessions.length ≤ 5))
    ∧ ((["s1", "s2", "s3", "s4", "s5", "s6"].foldl
          (fun acc i => saveSession
            { sessFix with sessionId := some i, conversationTitle := some i }
            ("at-" ++ i) acc)
          (⟨[]⟩ : SessionHistory)).sessions.map SavedSession.session_id
        = ["s6", "s5", "s4", "s3", "s2"]) := by
  constructor
  · intro saves
    exact foldl_saveSession_le saves ⟨[]⟩ (by simp)
  · decide

/-- History entry fixtures. -/
def savedA : SavedSession :=
  { session_id := "a", saved_at := "t0", working_dir := "D", title := "A" }

def savedB : SavedSession :=
  { session_id := "b", saved_at := "t0", working_dir := "D", title := "B" }

/-- A live session about to re-save id `b` with a newer title. -/
def liveB : SessState :=
  { sessFix with
    sessionId := some "b"
    conversationTitle := some "B2"
    workingDir := "D" }

/-- C7 counterexample: re-saving id `b` while history is `[a, b]` yields
exactly one entry for `b` with the latest title and timestamp, but that
entry stays at position 1: the head of the history is still `a`, so the
re-saved entry is not moved to the front. -/
theorem c7_resave_not_moved_to_front :
    (saveSession liveB "t1" ⟨[savedA, savedB]⟩).sessions
      = [savedA,
         { session_id := "b", saved_at := "t1", working_dir := "D",
           title := "B2" }] ∧
    (saveSession liveB "t1" ⟨[savedA, savedB]⟩).sessions.head?
      ≠ some { session_id := "b", saved_at := "t1", working_dir := "D",
               title := "B2" } := by
  decide

lemma filter_id_eq_nil : ∀ (l : List SavedSession) (sid : String),
    sid ∉ l.map SavedSession.session_id →
    l.filter (fun s => s.session_id == sid) = []
  | [], _, _ => rfl
  | s :: l, sid, h => by
    have hs : ¬s.session_id = sid := fun e => h (by simp [e])
    have hl : sid ∉ l.map SavedSession.session_id := fun e => h (by simp [e])
    simp [List.filter_cons, hs, filter_id_eq_nil l sid hl]

lemma upsert_present (sid : String) :
    ∀ (l : List SavedSession) (ns : SavedSession),
    ns.session_id = sid →
    sid ∈ l.map SavedSession.session_id →
    (l.map SavedSession.session_id).Nodup →
    ((match l.findIdx? (fun s : SavedSession => s.session_id == sid) with
      | some i => l.set i ns
      | none => ns :: l).map SavedSession.session_id
        = l.map SavedSession.session_id)
    ∧ (match l.findIdx? (fun s : SavedSession => s.session_id == sid) with
       | some i => l.set i ns
       | none => ns :: l).filter (fun s => s.session_id == sid) = [ns]
  | [], ns, _, hmem, _ => absurd hmem (by simp)
  | s :: l, ns, hid, hmem, hnd => by
    rw [List.findIdx?_cons]
    by_cases h : s.session_id = sid
    · simp only [h, beq_self_eq_true, if_pos, cond_true]
      have hnd' : (s.session_id :: l.map SavedSession.session_id).Nodup := by
        simpa using hnd
      have hnotin : sid ∉ l.map SavedSession.session_id := by
        have h2 := (List.nodup_cons.mp hnd').1
        rwa [h] at h2
      constructor
      · simp [h, hid]
      · simp [List.filter_cons, hid, filter_id_eq_nil l sid hnotin]
    · have hb : (s.session_id == sid) = false := beq_eq_false_iff_ne.mpr h
      rw [hb]
      simp only [Bool.false_eq_true, if_false]
      have hmem' : sid ∈ s.session_id :: l.map SavedSession.session_id := by
        simpa using hmem
      have hmem2 : sid ∈ l.map SavedSession.session_id := by
        rcases List.mem_cons.mp hmem' with h' | h'
        · exact absurd h'.symm h
        · exact h'
      have hnd' : (s.session_id :: l.map SavedSession.session_id).Nodup := by
        simpa using hnd
      have hnd2 : (l.map SavedSession.session_id).Nodup :=
        (List.nodup_cons.mp hnd').2
      have ih := upsert_present sid l ns hid hmem2 hnd2
      cases hfi : l.findIdx? (fun s : SavedSession => s.session_id == sid) with
      | none =>
        exfalso
        have := List.findIdx?_eq_none_iff.mp hfi
        rcases List.mem_map.mp hmem2 with ⟨x, hx, hxid⟩
        have := this x hx
        simp [hxid] at this
      | some i =>
        rw [hfi] at ih
        rw [List.findIdx?_start_succ, hfi]
        simp only [Option.map_some']
        constructor
        · simpa [List.set_cons_succ] using ih.1
        · simpa [List.filter_cons, hb, List.set_cons_succ] using ih.2

/-- C7 amended: re-saving a non-empty `session_id` (an empty one is
JS-falsy, so the save guard makes it a no-op) already present in a
history of distinct ids (within the capacity bound) leaves exactly one
entry for that id, holding the latest title and saved-at values, and the
ordering of the session ids is unchanged — the entry is replaced in
place, not moved to the front. -/
theorem c7_history_upsert_in_place (live : SessState) (savedAt : String)
    (history : SessionHistory) (sid : String)
    (hsid : live.sessionId = some sid)
    (hne : sid ≠ "")
    (hmem : sid ∈ history.sessions.map SavedSession.session_id)
    (hnd : (history.sessions.map SavedSession.session_id).Nodup)
    (hlen : history.sessions.length ≤ 5) :
    (saveSession live savedAt history).sessions.map SavedSession.session_id
      = history.sessions.map SavedSession.session_id ∧
    (saveSession live savedAt history).sessions.filter
      (fun s => s.session_id == sid) = [mkSavedSession live sid savedAt] := by
  have h := upsert_present sid history.sessions
    (mkSavedSession live sid savedAt) rfl hmem hnd
  have hlen2 : (match history.sessions.findIdx?
        (fun s : SavedSession => s.session_id == sid) with
      | some i => history.sessions.set i (mkSavedSession live sid savedAt)
      | none => mkSavedSession live sid savedAt :: history.sessions).length
      = history.sessions.length := by
    have := congrArg List.length h.1
    simpa using this
  simp only [saveSession, hsid]
  rw [if_neg hne]
  rw [List.take_of_length_le (by rw [hlen2]; exact hlen)]
  exact h

/-- C7 amended witness: re-saving `b` into `[a, b]` keeps the id order
`[a, b]` and stores exactly one entry for `b` with the new title. -/
theorem c7_history_upsert_in_place_witness :
    (saveSession liveB "t1" ⟨[savedA, savedB]⟩).sessions.map
      SavedSession.session_id = ["a", "b"] ∧
    (saveSession liveB "t1" ⟨[savedA, savedB]⟩).sessions.filter
      (fun s => s.session_id == "b") = [mkSavedSession liveB "b" "t1"] :=
  c7_history_upsert_in_place liveB "t1" ⟨[savedA, savedB]⟩ "b"
    (by decide) (by decide) (by decide) (by decide) (by decide)

/-- C8: `resumeSession` fails with `"Session not found"` and leaves the
live state untouched when the id is absent; fails with the
different-directory message and leaves the live state untouched when the
stored entry has a non-empty working directory other than the live one;
otherwise succeeds, adopting the stored id and title and stamping
`lastActivity`. -/
theorem c8_resume_spec (live : SessState) (history : SessionHistory)
    (sid : String) (now : Nat) :
    (history.sessions.find? (fun s => s.session_id == sid) = none →
      resumeSession live history sid now = ((false, "Session not found"), live))
    ∧ (∀ sd, history.sessions.find? (fun s => s.session_id == sid) = some sd →
        sd.working_dir ≠ "" → sd.working_dir ≠ live.workingDir →
        resumeSession live history sid now
          = ((false, "Session is for a different directory: "
                ++ sd.working_dir), live))
    ∧ (∀ sd, history.sessions.find? (fun s => s.session_id == sid) = some sd →
        (sd.working_dir = "" ∨ sd.working_dir = live.workingDir) →
        resumeSession live history sid now
          = ((true, "Resumed session: \"" ++ sd.title ++ "\""),
             { live with
                sessionId := some sd.session_id
                conversationTitle := some sd.title
                lastActivity := some now })) := by
  refine ⟨?_, ?_, ?_⟩
  · intro h
    simp [resumeSession, h]
  · intro sd h h1 h2
    simp [resumeSession, h, h1, h2]
  · intro sd h hor
    simp only [resumeSession, h]
    rw [if_neg]
    rintro ⟨a, b⟩
    rcases hor with h' | h'
    · exact a h'
    · exact b h'

/-- A saved entry recorded under a different working directory. -/
def savedOther : SavedSession :=
  { session_id := "x", saved_at := "t0", working_dir := "D:/other"
    title := "Other" }

/-- C8 witness: resuming an unknown id and resuming a cross-directory
entry both fail without touching the live state; resuming a
same-directory entry succeeds and adopts id, title and `lastActivity`. -/
theorem c8_resume_spec_witness :
    resumeSession sessFix ⟨[savedOther]⟩ "y" 7
      = ((false, "Session not found"), sessFix) ∧
    resumeSession sessFix ⟨[savedOther]⟩ "x" 7
      = ((false, "Session is for a different directory: D:/other"), sessFix) ∧
    resumeSession { sessFix with workingDir := "D:/other" } ⟨[savedOther]⟩
        "x" 7
      = ((true, "Resumed session: \"Other\""),
         { sessFix with
            workingDir := "D:/other"
            sessionId := some "x"
            conversationTitle := some "Other"
            lastActivity := some 7 }) :=
  ⟨(c8_resume_spec sessFix ⟨[savedOther]⟩ "y" 7).1 (by decide),
   (c8_resume_spec sessFix ⟨[savedOther]⟩ "x" 7).2.1 savedOther (by decide)
     (by decide) (by decide),
   (c8_resume_spec { sessFix with workingDir := "D:/other" } ⟨[savedOther]⟩
       "x" 7).2.2 savedOther (by decide) (Or.inr (by decide))⟩

/-! ### Context percent -/

lemma captureSession_contextPercent (st : LoopState) (sid : Option String) :
    (captureSession st sid).sess.contextPercent = st.sess.contextPercent := by
  cases sid
  · rfl
  · simp only [captureSession]
    split_ifs <;> rfl

lemma processEvent_result_contextPercent (env : Env) (t : Nat)
    (st : LoopState) (sid rt : Option String) (u : Option Usage)
    (models : List ModelUsageEntry) (ie : Bool) (sub ef : Option String) :
    (processEvent env t st
        (.result sid rt u models ie sub ef)).st.sess.contextPercent
      = match computeContextPercent models with
        | some p => some p
        | none => st.sess.contextPercent := by
  have hc := captureSession_contextPercent st sid
  simp only [processEvent]
  split_ifs <;> (repeat' split) <;> simp_all

/-- C9: on a result event carrying a per-model usage breakdown, the stored
context percent is the rounding of `100 * totalTokens / contextWindow`
computed from the first model entry, with the window defaulting to 200000
when unreported; on the concrete instance of the spec
(50000 + 10000 tokens over a 200000 window) the value is 30. -/
theorem c9_context_percent (env : Env) (t : Nat) (st : LoopState)
    (sid rt : Option String) (u : Option Usage) (m : ModelUsageEntry)
    (rest : List ModelUsageEntry) (ie : Bool) (sub ef : Option String)
    (hw : m.contextWindow ≠ some 0) :
    ((processEvent env t st
        (.result sid rt u (m :: rest) ie sub ef)).st.sess.contextPercent
      = some (jsRound (100 * (totalTokensOf m : ℚ) /
          (match m.contextWindow with
           | none => (200000 : ℚ)
           | some w => (w : ℚ)))))
    ∧ computeContextPercent
        [{ inputTokens := 50000, outputTokens := 10000
           cacheReadInputTokens := 0, cacheCreationInputTokens := 0
           contextWindow := some 200000 }] = some 30 := by
  constructor
  · have harg : (totalTokensOf m : ℚ) / (effectiveWindow m : ℚ) * 100
        = 100 * (totalTokensOf m : ℚ) /
            (match m.contextWindow with
             | none => (200000 : ℚ)
             | some w => (w : ℚ)) := by
      cases hcw : m.contextWindow with
      | none =>
        simp only [effectiveWindow, hcw]
        ring
      | some w =>
        cases w with
        | zero => exact absurd hcw hw
        | succ k =>
          simp only [effectiveWindow, hcw]
          ring
    rw [processEvent_result_contextPercent]
    simp only [computeContextPercent]
    rw [harg]
  · simp only [computeContextPercent, totalTokensOf, effectiveWindow, jsRound]
    norm_num

/-- C9 witness: the spec instance evaluated through a result event. -/
theorem c9_context_percent_witness :
    (processEvent envFix 0 (initLoopState sessFix) (StreamEvent.result none
      none none
      [{ inputTokens := 50000, outputTokens := 10000
         cacheReadInputTokens := 0, cacheCreationInputTokens := 0
         contextWindow := some 200000 }]
      false none none)).st.sess.contextPercent = some 30 := by
  have h := (c9_context_percent envFix 0 (initLoopState sessFix) none none
    none
    { inputTokens := 50000, outputTokens := 10000
      cacheReadInputTokens := 0, cacheCreationInputTokens := 0
      contextWindow := some 200000 }
    [] false none none (by simp)).1
  rw [h]
  norm_num [jsRound, totalTokensOf]

/-! ### Prompt piping -/

lemma stdinSent_runEpilogue (inp : RunInput) (stdin : String) (lr : LoopOut)
    (tooLong : Bool) :
    (runEpilogue inp stdin lr tooLong).stdinSent = some stdin := by
  simp only [runEpilogue]
  split_ifs <;> rfl

lemma stdinSent_catchBlock (inp : RunInput) (stdin : String) (lr : LoopOut)
    (tooLong : Bool) (m : String) :
    (catchBlock inp stdin lr tooLong m).stdinSent = some stdin := by
  simp only [catchBlock]
  split_ifs
  · exact stdinSent_runEpilogue inp stdin lr tooLong
  · rfl

lemma stdinSent_finishRun (inp : RunInput) (stdin : String) (lr : LoopOut) :
    (finishRun inp stdin lr).stdinSent = some stdin := by
  simp only [finishRun]
  cases lr.thrown
  · split_ifs
    · exact stdinSent_catchBlock _ _ _ _ _
    · exact stdinSent_runEpilogue _ _ _ _
  · exact stdinSent_catchBlock _ _ _ _ _

/-- C10: whenever the query is not cancelled before spawn, the prompt
piped to the stdin of the subprocess is the bracketed date/time line, a
blank line, then the caller message when no session was active at query
start; and the caller message verbatim when a session was active. -/
theorem c10_prompt_stdin (env : Env) (sess0 : SessState) (inp : RunInput)
    (h : inp.stopBeforeSpawn = false) :
    (sendMessageStreaming env sess0 inp).stdinSent
      = some (if sess0.sessionId = none
          then "[Current date/time: " ++ inp.dateStr ++ "]\n\n" ++ inp.message
          else inp.message) := by
  simp only [sendMessageStreaming, h]
  rw [if_neg (by simp)]
  rw [stdinSent_finishRun]
  by_cases hs : sess0.sessionId = none <;>
    simp [buildMessageToSend, hs]

/-- New-session fixture (no live session id). -/
def sessNew : SessState := { sessFix with sessionId := none }

/-- C10 witness: with an active session the message goes verbatim; with no
session the message gains the leading date line and a blank line. -/
theorem c10_prompt_stdin_witness :
    (sendMessageStreaming envFix sessFix inpSeg).stdinSent = some "hi" ∧
    (sendMessageStreaming envFix sessNew inpSeg).stdinSent
      = some "[Current date/time: D]\n\nhi" := by
  constructor
  · have h := c10_prompt_stdin envFix sessFix inpSeg rfl
    simpa [sessFix] using h
  · have h := c10_prompt_stdin envFix sessNew inpSeg rfl
    simpa [sessNew, sessFix] using h

end GsdBot
